import Mathlib

/-!
Shallow embedding of the duty-group clustering and shared-timeline engine of
the atcapp repository (`src/atcapp/estadillos.py`; `src/cambios/estadillos.py`
is algorithmically identical and differs only in timezone plumbing).

Modelling conventions:
* Instants (`datetime`) are integers counting seconds on one canonical scale
  (UTC).  The `hora_inicio_utc` / `hora_inicio_tz` accessors denote the same
  instant as the stored naive value, so timestamp comparisons are integer
  comparisons.  Wall-clock rendering (`strftime("%H:%M")`) is modelled as the
  minute-of-day `(t / 60) % 1440`.
* Controllers (`ATC` rows) are identified by their opaque id, a `Nat`.
* Sectors are identified by their display name, a `String` (`ColorManager`
  keys sectors by name; the grouping sets only test membership).
* Python `timedelta.seconds // 60` on `end - start` is
  `((end - start) % 86400) / 60` with floor conventions, since `timedelta`
  normalises its `seconds` field into `[0, 86400)`.
* Python dictionaries are insertion-ordered association lists.
* Mutation of `Grupo.anchor` is modelled by returning the updated group list.
* Exceptions (`IndexError` from popping an empty palette, `ValueError` from
  the personal view) are modelled by the `Resultado` type below.
* Display-only floating point fields (`porcentaje`, `marcador`) and the
  colour-darkening HSL arithmetic are outside the integer fragment; the
  darkened planner shade is abstracted as an arbitrary function of the
  executive colour, which is all the verified properties depend on.
-/

/-- A `Periodo` row: one controller, one time window, one activity,
optionally one sector (`none` encodes rest / off duty). -/
structure Periodo where
  controlador : Nat
  sector : Option String
  horaInicio : Int
  horaFin : Int
  actividad : String
deriving DecidableEq, Repr

/-- Python `(b - a).seconds // 60`: the `timedelta` seconds field is the
difference normalised into `[0, 86400)`, then floor-divided by 60. -/
def minutosTd (a b : Int) : Int := ((b - a) % 86400) / 60

/-- Result of a fallible computation; `error` carries the Python exception
message (or exception name). -/
inductive Resultado (α : Type) where
  | ok : α → Resultado α
  | error : String → Resultado α
deriving DecidableEq, Repr

/-- The successful value of a `Resultado`, when any. -/
def resultadoOk? {α : Type} : Resultado α → Option α
  | .ok a => some a
  | .error _ => none

/-- First-occurrence deduplication, the key order of a Python dict built by
repeated insertion. -/
def primeraVez {α : Type} [DecidableEq α] (vistos : List α) : List α → List α
  | [] => []
  | x :: xs =>
    if x ∈ vistos then primeraVez vistos xs
    else x :: primeraVez (x :: vistos) xs

/-- `periodos_por_controlador[c]`: all of controller `c`'s periods in input
order (the defaultdict collects every period, rest included). -/
def periodosDe (periodos : List Periodo) (c : Nat) : List Periodo :=
  periodos.filter (fun p => p.controlador == c)

/-- `sectores_por_controlador[c]`: the set of sectors controller `c` touches
(periods without a sector are ignored), as a first-occurrence list. -/
def sectoresDe (periodos : List Periodo) (c : Nat) : List String :=
  primeraVez [] ((periodosDe periodos c).filterMap (fun p => p.sector))

/-- `list(sectores_por_controlador.keys())`: controllers owning at least one
sector-bearing period, in first-appearance order. -/
def clavesControladores (periodos : List Periodo) : List Nat :=
  primeraVez []
    (periodos.filterMap (fun p => if p.sector.isSome then some p.controlador else none))

/-- Python `set_a & set_b` used as a truth value: nonempty intersection. -/
def interseca (xs ys : List String) : Bool :=
  xs.any (fun x => ys.contains x)

/-- `grupo_sectores.update(...)`: set union, keeping the accumulated list and
appending unseen elements. -/
def uneSectores (gs xs : List String) : List String :=
  gs ++ xs.filter (fun x => !gs.contains x)

/-- One absorption pass of `identifica_grupos`: scan the snapshot of
unassigned controllers left to right; absorb each whose sector set meets the
group's sector set as accumulated so far.  Returns (absorbed controllers in
scan order, controllers still unassigned in order, final group sector set). -/
def absorbe (sect : Nat → List String) (gs : List String) :
    List Nat → List Nat × List Nat × List String
  | [] => ([], [], gs)
  | c :: resto =>
    if interseca (sect c) gs then
      let r := absorbe sect (uneSectores gs (sect c)) resto
      (c :: r.1, r.2.1, r.2.2)
    else
      let r := absorbe sect gs resto
      (r.1, c :: r.2.1, r.2.2)

/-- The outer worklist loop of `identifica_grupos`: repeatedly pop the first
unassigned controller, seed a group with its sector set and absorb, in one
left-to-right pass, every remaining controller whose sectors meet the growing
set.  Returns each group as (member controllers in discovery order, group
sector set).  The `fuel` argument makes the recursion structural; by
`absorbe_resto_length` the worklist shrinks strictly each round, so any
`fuel ≥ l.length` yields the loop's behaviour and the `fuel = 0` fallback is
never reached from `identifica_grupos`. -/
def agrupa (sect : Nat → List String) : Nat → List Nat →
    List (List Nat × List String)
  | _, [] => []
  | 0, _ :: _ => []
  | fuel + 1, c :: resto =>
    if sect c = [] then agrupa sect fuel resto
    else
      let r := absorbe sect (sect c) resto
      (c :: r.1, r.2.2) :: agrupa sect fuel r.2.1

/-- `Grupo`: controllers jointly working a set of sectors, their period
lists (an insertion-ordered dict), the group duration in minutes, and the
optional scroll anchor. -/
structure Grupo where
  sectores : List String
  controladores : List (Nat × List Periodo)
  duracion : Int
  anchor : Option Periodo := none
deriving DecidableEq, Repr

/-- `(fin - inicio).seconds // 60` for the seed controller's first and last
listed periods (Python indexes `[0]` and `[-1]`; the list is nonempty for
every controller that reaches a group). -/
def duracionGrupo (ps : List Periodo) : Int :=
  match ps.head?, ps.getLast? with
  | some p0, some pn => minutosTd p0.horaInicio pn.horaFin
  | _, _ => 0

/-- `identifica_grupos`: cluster the controllers of one roster and package
each cluster as a `Grupo`.  The group's duration is computed from the first
and last period of the group's seed controller only. -/
def identifica_grupos (periodos : List Periodo) : List Grupo :=
  (agrupa (sectoresDe periodos) (clavesControladores periodos).length
      (clavesControladores periodos)).map
    (fun g =>
      { sectores := g.2
        controladores := g.1.map (fun c => (c, periodosDe periodos c))
        duracion := duracionGrupo (periodosDe periodos (g.1.headD 0))
        anchor := none })

/-- `_es_activo`: label a period `"PAS"`, `"ACT"` or `"FUT"` relative to
`now` and the group span, with the outside-span rule first. -/
def es_activo (horaInicio horaFin grupoHoraInicio grupoHoraFin now : Int) :
    String :=
  if now < grupoHoraInicio ∨ now > grupoHoraFin then "FUT"
  else if horaFin < now then "PAS"
  else if horaInicio > now then "FUT"
  else "ACT"

/-- The palette `ColorManager.__post_init__` installs: twenty entries, the
ten hues listed twice. -/
def coloresIniciales : List String :=
  ["#FF5733", "#33FF57", "#3357FF", "#FF33A1", "#A133FF",
   "#33FFF2", "#FFC133", "#FF3333", "#33FF99", "#FF33FF",
   "#FF5733", "#33FF57", "#3357FF", "#FF33A1", "#A133FF",
   "#33FFF2", "#FFC133", "#FF3333", "#33FF99", "#FF33FF"]

/-- `ColorManager` state: the `sector_colors` dict as an insertion-ordered
list of (sector, executive colour, planner colour), and the remaining
`available_colors` palette. -/
structure ColorManager where
  sectorColors : List (String × String × String)
  availableColors : List String
deriving DecidableEq, Repr

/-- A fresh `ColorManager()`. -/
def colorManagerInicial : ColorManager :=
  { sectorColors := [], availableColors := coloresIniciales }

/-- Dict lookup `self.sector_colors[sector]`. -/
def buscaColor (sc : List (String × String × String)) (s : String) :
    Option (String × String) :=
  match sc with
  | [] => none
  | (t, e, p) :: resto => if t = s then some (e, p) else buscaColor resto s

/-- `ColorManager.get_color`: on first sight of a sector, pop the palette
head as the executive colour and store it with its darkened planner shade;
afterwards serve the cached pair.  Popping an empty palette raises
`IndexError`.  The HSL darkening `_darken_color` is float arithmetic and is
abstracted as the function argument `darken`. -/
def get_color (darken : String → String) (cm : ColorManager) (sector : String)
    (isExecutive : Bool) : Resultado (String × ColorManager) :=
  match buscaColor cm.sectorColors sector with
  | some (e, p) => .ok (if isExecutive then e else p, cm)
  | none =>
    match cm.availableColors with
    | [] => .error "IndexError"
    | c :: resto =>
      let cm2 : ColorManager :=
        { sectorColors := cm.sectorColors ++ [(sector, c, darken c)]
          availableColors := resto }
      .ok ((if isExecutive then c else darken c), cm2)

/-- Run a sequence of `get_color` requests against one allocator instance,
stopping at the first exception. -/
def ejecutaColores (darken : String → String) (cm : ColorManager) :
    List (String × Bool) → Resultado ColorManager
  | [] => .ok cm
  | (s, f) :: resto =>
    match get_color darken cm s f with
    | .ok r => ejecutaColores darken r.2 resto
    | .error e => .error e

/-- The activity test of `marca_anchor`:
`periodo.hora_inicio_utc <= now <= periodo.hora_fin_utc`. -/
def periodoActivo (now : Int) (p : Periodo) : Bool :=
  decide (p.horaInicio ≤ now ∧ now ≤ p.horaFin)

/-- `periodos_activos`: every period across every group active at `now`, in
group / member / list order. -/
def periodosActivos (grupos : List Grupo) (now : Int) : List Periodo :=
  grupos.flatMap (fun g =>
    g.controladores.flatMap (fun cp => cp.2.filter (periodoActivo now)))

/-- `user in grupo.controladores`. -/
def tieneControlador (g : Grupo) (u : Nat) : Bool :=
  g.controladores.any (fun cp => cp.1 == u)

/-- `next(grupo for grupo in grupos if user in grupo.controladores)` followed
by `grupo.anchor = periodo`: set the anchor on the first group containing
the user, leaving the rest untouched. -/
def ponAnchorPrimerGrupoCon (u : Nat) (p : Periodo) : List Grupo → List Grupo
  | [] => []
  | g :: resto =>
    if tieneControlador g u then { g with anchor := some p } :: resto
    else g :: ponAnchorPrimerGrupoCon u p resto

/-- The `if user:` branch of `marca_anchor`: walk the active periods; at the
first one owned by the user, anchor the user's group and return.  `none`
means the loop fell through to the largest-group branch. -/
def buscaAnchorUsuario (grupos : List Grupo) (u : Nat) :
    List Periodo → Option (List Grupo)
  | [] => none
  | p :: resto =>
    if p.controlador == u then
      if grupos.any (fun g => tieneControlador g u) then
        some (ponAnchorPrimerGrupoCon u p grupos)
      else buscaAnchorUsuario grupos u resto
    else buscaAnchorUsuario grupos u resto

/-- `max(grupos, key=lambda g: len(g.controladores))`: Python `max` keeps the
first maximal element; return its index and the group. -/
def indiceGrupoMax : List Grupo → Option (Nat × Grupo)
  | [] => none
  | g :: resto =>
    match indiceGrupoMax resto with
    | none => some (0, g)
    | some (i, h) =>
      if h.controladores.length > g.controladores.length then some (i + 1, h)
      else some (0, g)

/-- The largest-group branch of `marca_anchor`: if any period is active,
take the first group of maximal member count over ALL groups and anchor it
at the first active period belonging to one of its members; if that group
has no active period, nothing is anchored.  (With active periods present the
group list is nonempty, so Python's `max` cannot raise here.) -/
def marcaMax (grupos : List Grupo) (activos : List Periodo) : List Grupo :=
  if activos.isEmpty then grupos
  else
    match indiceGrupoMax grupos with
    | none => grupos
    | some (i, g) =>
      match activos.find? (fun p => tieneControlador g p.controlador) with
      | some p => grupos.set i { g with anchor := some p }
      | none => grupos

/-- `marca_anchor`: anchor the user's group at the user's first active
period when possible, else fall back to the largest group. -/
def marca_anchor (grupos : List Grupo) (user : Option Nat) (now : Int) :
    List Grupo :=
  let activos := periodosActivos grupos now
  match user with
  | some u =>
    match buscaAnchorUsuario grupos u activos with
    | some r => r
    | none => marcaMax grupos activos
  | none => marcaMax grupos activos

/-- Stable insertion of a period into a list sorted by `hora_inicio`: the
new element goes after every element with a smaller-or-equal start. -/
def insertaOrdenado (p : Periodo) : List Periodo → List Periodo
  | [] => [p]
  | q :: qs =>
    if p.horaInicio < q.horaInicio then p :: q :: qs else q :: insertaOrdenado p qs

/-- `periodos_todos.sort(key=lambda p: p.hora_inicio)`: Python's sort is
stable; a stable sort is modelled by left-to-right stable insertion. -/
def ordenaPorInicio (l : List Periodo) : List Periodo :=
  l.foldl (fun acc p => insertaOrdenado p acc) []

/-- A rendered period cell (`PeriodoData`).  Times are the minute-of-day
shown by `strftime("%H:%M")`; header slots leave `horaFin` empty (`none`).
The display-only float `porcentaje` is omitted. -/
structure PeriodoData where
  horaInicio : Int
  horaFin : Option Int
  actividad : String
  color : String
  duracion : Int
  activo : String := "FUT"
  scrollAnchor : Bool := false
deriving DecidableEq, Repr

/-- Minute of day rendered by `strftime("%H:%M")` on the canonical scale. -/
def minutoDeDia (t : Int) : Int := (t / 60) % 1440

/-- One header slot with the given rendered start and duration. -/
def slotData (inicio dur : Int) : PeriodoData :=
  { horaInicio := minutoDeDia inicio, horaFin := none, actividad := ""
    color := "", duracion := dur }

/-- The `while periodos_deque:` loop of `_genera_horas_de_inicio`, fused
into one structural pass over the sorted pool: `runStart` is the slot start
popped first, `cur` the last period popped for the current run
(`current_period`).  A further period with the same start extends the run;
a different start closes the slot with the gap to that start; the end of the
pool closes the last slot with the gap to `cur`'s own end. -/
def slotsAux (runStart : Int) (cur : Periodo) : List Periodo → List PeriodoData
  | [] => [slotData runStart (minutosTd runStart cur.horaFin)]
  | q :: resto =>
    if q.horaInicio == runStart then slotsAux runStart q resto
    else
      slotData runStart (minutosTd runStart q.horaInicio) ::
        slotsAux q.horaInicio q resto

/-- One slot per distinct start of the sorted pool. -/
def generaHorasAux : List Periodo → List PeriodoData
  | [] => []
  | p :: resto => slotsAux p.horaInicio p resto

/-- `_genera_horas_de_inicio`: pool every member's periods, sort by start,
collapse equal starts into slots.  `durTotal` only feeds the omitted
`porcentaje` field. -/
def genera_horas_de_inicio (durTotal : Int)
    (controladores : List (Nat × List Periodo)) : List PeriodoData :=
  generaHorasAux (ordenaPorInicio (controladores.flatMap (fun cp => cp.2)))

/-- `_genera_actividad`: `""` for rest, `"CAS"` verbatim, otherwise
`f"{actividad}-{sector.nombre}"` (a missing sector raises
`AttributeError`). -/
def genera_actividad (p : Periodo) : Resultado String :=
  if p.actividad = "D" then .ok ""
  else if p.actividad = "CAS" then .ok "CAS"
  else
    match p.sector with
    | some s => .ok (p.actividad ++ "-" ++ s)
    | none => .error "AttributeError"

/-- `_genera_color`: `"white"` for rest, otherwise the sector colour with
the executive shade iff the activity is `"E"`. -/
def genera_color (darken : String → String) (cm : ColorManager) (p : Periodo) :
    Resultado (String × ColorManager) :=
  if p.actividad = "D" then .ok ("white", cm)
  else
    match p.sector with
    | some s => get_color darken cm s (p.actividad == "E")
    | none => .error "AttributeError"

/-- The per-period comprehension of `genera_datos_grupo`, threading the
shared colour allocator left to right. -/
def generaPeriodosData (darken : String → String) (gIni gFin now : Int)
    (anchor : Option Periodo) (cm : ColorManager) :
    List Periodo → Resultado (List PeriodoData × ColorManager)
  | [] => .ok ([], cm)
  | p :: resto =>
    match genera_actividad p with
    | .error e => .error e
    | .ok act =>
      match genera_color darken cm p with
      | .error e => .error e
      | .ok (col, cm2) =>
        match generaPeriodosData darken gIni gFin now anchor cm2 resto with
        | .error e => .error e
        | .ok (pds, cm3) =>
          .ok ({ horaInicio := minutoDeDia p.horaInicio
                 horaFin := some (minutoDeDia p.horaFin)
                 actividad := act
                 color := col
                 duracion := minutosTd p.horaInicio p.horaFin
                 activo := es_activo p.horaInicio p.horaFin gIni gFin now
                 scrollAnchor := anchor == some p } :: pds, cm3)

/-- One controller row (`EstadilloPersonalData`). -/
structure EstadilloPersonalData where
  nombre : String
  periodos : List PeriodoData
  usuarioActual : Bool := false
deriving DecidableEq, Repr

/-- One rendered group (`GrupoDatos`); the display-only float `marcador` is
omitted. -/
structure GrupoDatos where
  sectores : List String
  atcs : List EstadilloPersonalData
  horasInicio : List PeriodoData
deriving DecidableEq, Repr

/-- Stable insertion for `sectores.sort()` on names. -/
def insertaNombre (s : String) : List String → List String
  | [] => [s]
  | t :: ts => if s < t then s :: t :: ts else t :: insertaNombre s ts

/-- `sectores.sort()`. -/
def ordenaNombres (l : List String) : List String :=
  l.foldl (fun acc s => insertaNombre s acc) []

/-- The per-controller loop of `genera_datos_grupo`. -/
def generaAtcsData (darken : String → String) (nombres : Nat → String)
    (user : Option Nat) (gIni gFin now : Int) (anchor : Option Periodo)
    (cm : ColorManager) :
    List (Nat × List Periodo) →
    Resultado (List EstadilloPersonalData × ColorManager)
  | [] => .ok ([], cm)
  | (c, ps) :: resto =>
    match generaPeriodosData darken gIni gFin now anchor cm ps with
    | .error e => .error e
    | .ok (pds, cm2) =>
      match generaAtcsData darken nombres user gIni gFin now anchor cm2 resto with
      | .error e => .error e
      | .ok (atcs, cm3) =>
        .ok ({ nombre := nombres c, periodos := pds
               usuarioActual := user == some c } :: atcs, cm3)

/-- `genera_datos_grupo`: sorted sector names, per-controller rows, and the
shared timeline header.  `gIni`/`gFin` are the roster span
(`estadillo.hora_inicio` / `hora_fin`). -/
def genera_datos_grupo (darken : String → String) (nombres : Nat → String)
    (grupo : Grupo) (cm : ColorManager) (gIni gFin now : Int)
    (user : Option Nat) : Resultado (GrupoDatos × ColorManager) :=
  match generaAtcsData darken nombres user gIni gFin now grupo.anchor cm
      grupo.controladores with
  | .error e => .error e
  | .ok (atcs, cm2) =>
    .ok ({ sectores := ordenaNombres grupo.sectores
           atcs := atcs
           horasInicio := genera_horas_de_inicio grupo.duracion grupo.controladores },
         cm2)

/-- A colleague sharing the viewer's window and sector
(`InfoCompañero`). -/
structure InfoCompanero where
  nombre : String
  actividad : String
deriving DecidableEq, Repr

/-- `PeriodoContextualizado`: one of the viewer's rendered periods plus the
colleagues matched to it (`relevo_anterior` / `relevo_siguiente` are never
assigned by the source and are omitted). -/
structure PeriodoContextualizado where
  base : PeriodoData
  companeros : List InfoCompanero
deriving DecidableEq, Repr

/-- `VistaControladorCompleta`. -/
structure VistaControladorCompleta where
  estadilloBase : EstadilloPersonalData
  periodosContextualizados : List PeriodoContextualizado
deriving DecidableEq, Repr

/-- `DatosEstadilloCompleto`. -/
structure DatosEstadilloCompleto where
  grupos : List GrupoDatos
  vistaControlador : Option VistaControladorCompleta := none
deriving DecidableEq, Repr

/-- Python `s.split("-")[-1]`. -/
def ultimaParte (s : String) : String := (s.splitOn "-").getLastD ""

/-- Python `s.split("-")[0]`. -/
def primeraParte (s : String) : String := (s.splitOn "-").headD ""

/-- The search loop opening `generar_estadillo_personal`: the first rendered
controller row flagged `usuario_actual`, scanning groups in order. -/
def buscaUsuarioActual : List GrupoDatos → Option EstadilloPersonalData
  | [] => none
  | g :: resto =>
    match g.atcs.find? (fun a => a.usuarioActual) with
    | some a => some a
    | none => buscaUsuarioActual resto

/-- The colleague scan of `generar_estadillo_personal`: every period of every
other controller row matching the viewer's period on rendered start, end and
sector suffix of the activity label. -/
def companerosDe (gruposDatos : List GrupoDatos) (yo : EstadilloPersonalData)
    (pd : PeriodoData) : List InfoCompanero :=
  gruposDatos.flatMap (fun g =>
    g.atcs.flatMap (fun atc =>
      if atc = yo then []
      else
        (atc.periodos.filter (fun op =>
          op.horaInicio == pd.horaInicio && op.horaFin == pd.horaFin &&
            ultimaParte op.actividad == ultimaParte pd.actividad)).map
          (fun op => { nombre := atc.nombre
                       actividad := primeraParte op.actividad })))

/-- `generar_estadillo_personal`: locate the viewer's rendered row; raise
`ValueError` when absent; otherwise contextualise each of the viewer's
periods with matching colleagues. -/
def generar_estadillo_personal (gruposDatos : List GrupoDatos)
    (nombres : Nat → String) (user : Nat) : Resultado VistaControladorCompleta :=
  match buscaUsuarioActual gruposDatos with
  | none =>
    .error ("No se encontró información para el usuario " ++ nombres user)
  | some yo =>
    .ok { estadilloBase := yo
          periodosContextualizados :=
            yo.periodos.map (fun pd =>
              { base := pd, companeros := companerosDe gruposDatos yo pd }) }

/-- `estadillo.hora_inicio`: the minimum period start of the roster (the
property raises on an empty roster, but it is only evaluated when rendering
an existing group, hence on a nonempty roster; `0` stands in for the
unreachable empty case). -/
def estadilloHoraInicio (periodos : List Periodo) : Int :=
  match periodos.map (fun p => p.horaInicio) with
  | [] => 0
  | t :: ts => ts.foldl min t

/-- `estadillo.hora_fin`: the maximum period end of the roster. -/
def estadilloHoraFin (periodos : List Periodo) : Int :=
  match periodos.map (fun p => p.horaFin) with
  | [] => 0
  | t :: ts => ts.foldl max t

/-- The group loop of `genera_datos_estadillo`, threading one shared
`ColorManager` across every group. -/
def generaGruposDatos (darken : String → String) (nombres : Nat → String)
    (user : Option Nat) (gIni gFin now : Int) (cm : ColorManager) :
    List Grupo → Resultado (List GrupoDatos × ColorManager)
  | [] => .ok ([], cm)
  | g :: resto =>
    match genera_datos_grupo darken nombres g cm gIni gFin now user with
    | .error e => .error e
    | .ok (gd, cm2) =>
      match generaGruposDatos darken nombres user gIni gFin now cm2 resto with
      | .error e => .error e
      | .ok (gds, cm3) => .ok (gd :: gds, cm3)

/-- `genera_datos_estadillo`: the full presentation pipeline — group
discovery, anchor marking, per-group rendering with one fresh shared
`ColorManager`, and, when a viewer is given, the personal view. -/
def genera_datos_estadillo (darken : String → String) (nombres : Nat → String)
    (periodos : List Periodo) (user : Option Nat) (now : Int) :
    Resultado DatosEstadilloCompleto :=
  let grupos := marca_anchor (identifica_grupos periodos) user now
  match generaGruposDatos darken nombres user (estadilloHoraInicio periodos)
      (estadilloHoraFin periodos) now colorManagerInicial grupos with
  | .error e => .error e
  | .ok (gruposDatos, _) =>
    match user with
    | none => .ok { grupos := gruposDatos, vistaControlador := none }
    | some u =>
      match generar_estadillo_personal gruposDatos nombres u with
      | .error e => .error e
      | .ok vista =>
        .ok { grupos := gruposDatos, vistaControlador := some vista }

/-- Sum of the rendered durations of a list of cells. -/
def sumaDur (l : List PeriodoData) : Int := (l.map (fun pd => pd.duracion)).sum

/-- Spec-side reading (from the spec's words, not from the source): the
earliest period start across ALL of a group's members. -/
def inicioMasTempranoSpec (g : Grupo) : Option Int :=
  match (g.controladores.flatMap (fun cp => cp.2)).map (fun p => p.horaInicio) with
  | [] => none
  | t :: ts => some (ts.foldl min t)

/-- Spec-side reading (from the spec's words, not from the source): the
latest period end across ALL of a group's members. -/
def finMasTardioSpec (g : Grupo) : Option Int :=
  match (g.controladores.flatMap (fun cp => cp.2)).map (fun p => p.horaFin) with
  | [] => none
  | t :: ts => some (ts.foldl max t)

/-- Hypothesis vocabulary: `ps` is a contiguous chain of positive-length
periods from instant `s` to instant `e` — the spec's §3 data-model invariant
for one controller's roster (each period ends where the next starts; the
last ends at the roster's closing time). -/
def cadena (s e : Int) : List Periodo → Bool
  | [] => false
  | p :: resto =>
    decide (p.horaInicio = s) && decide (s < p.horaFin) &&
      (match resto with
       | [] => decide (p.horaFin = e)
       | _ :: _ => cadena p.horaFin e resto)

/-- A placeholder group used only as the default of `List.headD` in closed
witness statements. -/
def grupoVacio : Grupo :=
  { sectores := [], controladores := [], duracion := 0, anchor := none }

/-- Concrete sample period. -/
def mkP (c : Nat) (s : Option String) (t0 t1 : Int) (act : String) : Periodo :=
  { controlador := c, sector := s, horaInicio := t0, horaFin := t1
    actividad := act }

/-- Sample darkening function standing in for `_darken_color` in closed
concrete statements. -/
def darkenEjemplo (s : String) : String := s ++ "*"

/-- Sample display-name table for closed concrete statements. -/
def nombresEjemplo (n : Nat) : String := toString n

/-- Chain A–B–C with discovery order A, C, B: controller 1 works S1 only,
controller 3 works S2 only, controller 2 works both, and controller 3 is
discovered before controller 2. -/
def ejemploCadenaACB : List Periodo :=
  [mkP 1 (some "S1") 0 3600 "E", mkP 3 (some "S2") 0 3600 "E",
   mkP 2 (some "S1") 0 1800 "E", mkP 2 (some "S2") 1800 3600 "E"]

/-- The same chain with discovery order A, B, C. -/
def ejemploCadenaABC : List Periodo :=
  [mkP 1 (some "S1") 0 3600 "E", mkP 2 (some "S1") 0 1800 "E",
   mkP 2 (some "S2") 1800 3600 "E", mkP 3 (some "S2") 0 3600 "E"]

/-- Two controllers sharing sector X with different spans: the seed
controller 1 works 08:00–10:00, controller 2 works 07:00–10:00. -/
def ejemploSesgado : List Periodo :=
  [mkP 1 (some "X") 28800 36000 "E", mkP 2 (some "X") 25200 28800 "E",
   mkP 2 (some "X") 28800 36000 "P"]

/-- Two controllers tiling the same window 00:00–01:00 of sector X. -/
def ejemploAlineado : List Periodo :=
  [mkP 1 (some "X") 0 3600 "E", mkP 2 (some "X") 0 1800 "E",
   mkP 2 (some "X") 1800 3600 "P"]

/-- Two groups: controllers 1 and 2 share sector A1 with periods long past
by `now = 6000`, while the singleton group of controller 3 has the only
active period. -/
def ejemploAnchor : List Periodo :=
  [mkP 1 (some "A1") 0 1800 "E", mkP 2 (some "A1") 0 1800 "P",
   mkP 3 (some "B1") 5000 9000 "E"]

/-- Viewer-priority scenario: the two-member group of controllers 1 and 2
has active periods at `now = 6000`, and so does viewer 3's singleton
group. -/
def ejemploAnchorViewer : List Periodo :=
  [mkP 1 (some "A1") 0 9000 "E", mkP 2 (some "A1") 0 9000 "P",
   mkP 3 (some "B1") 5000 9000 "E"]

/-- A roster whose single period ends 30 minutes before it starts. -/
def ejemploInvertido : List Periodo :=
  [mkP 1 (some "X") 36000 34200 "E"]

/-- A roster whose single period spans 25 hours. -/
def ejemploLargo : List Periodo :=
  [mkP 1 (some "X") 0 90000 "E"]

/-- Twenty-one colour requests for pairwise distinct sectors. -/
def solicitudes21 : List (String × Bool) :=
  (List.range 21).map (fun i => (toString i, true))

/-- Eleven colour requests for pairwise distinct sectors. -/
def solicitudes11 : List (String × Bool) :=
  (List.range 11).map (fun i => (toString i, true))

/-- The sector names already assigned in an allocator state. -/
def sectoresAsignados (cm : ColorManager) : List String :=
  cm.sectorColors.map (fun x => x.1)

/-- The executive colours already assigned, in assignment order. -/
def coloresEjecutivos (cm : ColorManager) : List String :=
  cm.sectorColors.map (fun x => x.2.1)

theorem absorbe_resto_length (sect : Nat → List String) (gs : List String)
    (l : List Nat) : (absorbe sect gs l).2.1.length ≤ l.length := by
  induction l generalizing gs with
  | nil => simp [absorbe]
  | cons c resto ih =>
    simp only [absorbe]
    split
    · exact Nat.le_succ_of_le (ih _)
    · simpa using Nat.succ_le_succ (ih gs)

/-- C4, counterexample: the claim's biconditional "ACTIVE iff
start ≤ now ≤ end" fails as soon as `now` leaves the group span — here the
period covers `now` yet the classifier answers FUTURE. -/
theorem C4_counterexample :
    es_activo 0 100 10 20 50 = "FUT" ∧ (0 : Int) ≤ 50 ∧ (50 : Int) ≤ 100 := by
  decide

/-- C4, amended: `_es_activo` always returns exactly one of the three labels
PAS/ACT/FUT, and it returns ACT if and only if `now` lies both inside the
group span `[grupo_hora_inicio, grupo_hora_fin]` and inside the period
`[hora_inicio, hora_fin]` (all bounds inclusive). -/
theorem C4_amended_clasificador (hIni hFin gIni gFin now : Int) :
    (es_activo hIni hFin gIni gFin now = "PAS" ∨
      es_activo hIni hFin gIni gFin now = "ACT" ∨
      es_activo hIni hFin gIni gFin now = "FUT") ∧
    (es_activo hIni hFin gIni gFin now = "ACT" ↔
      gIni ≤ now ∧ now ≤ gFin ∧ hIni ≤ now ∧ now ≤ hFin) := by
  unfold es_activo
  split_ifs with h1 h2 h3 <;> simp_all <;> omega

/-- C5: the classifier's rules in evaluation order — FUTURE whenever `now`
is outside the group span; inside the span, PAST when the period already
ended, FUTURE when it has not started, ACTIVE otherwise; and a `now` after
the group's closing time yields FUTURE, never PAST. -/
theorem C5_orden_de_reglas (hIni hFin gIni gFin now : Int) :
    ((now < gIni ∨ now > gFin) → es_activo hIni hFin gIni gFin now = "FUT") ∧
    (gIni ≤ now → now ≤ gFin → hFin < now →
      es_activo hIni hFin gIni gFin now = "PAS") ∧
    (gIni ≤ now → now ≤ gFin → now ≤ hFin → hIni > now →
      es_activo hIni hFin gIni gFin now = "FUT") ∧
    (gIni ≤ now → now ≤ gFin → now ≤ hFin → hIni ≤ now →
      es_activo hIni hFin gIni gFin now = "ACT") ∧
    (now > gFin → es_activo hIni hFin gIni gFin now ≠ "PAS") := by
  unfold es_activo
  split_ifs with h1 h2 h3 <;> simp_all <;> omega

/-- C5, witness: the spec's §8 scenario — period 09:00–10:00 in a group
spanning 07:30–15:00 is FUT at 15:30 (outside-span rule) and ACT at
09:30. -/
theorem C5_orden_de_reglas_witness :
    es_activo 32400 36000 27000 54000 55800 = "FUT" ∧
    es_activo 32400 36000 27000 54000 34200 = "ACT" := by
  constructor
  · exact (C5_orden_de_reglas 32400 36000 27000 54000 55800).1
      (Or.inr (by decide))
  · exact (C5_orden_de_reglas 32400 36000 27000 54000 34200).2.2.2.1
      (by decide) (by decide) (by decide) (by decide)

theorem minutosTd_cotas (a b : Int) : 0 ≤ minutosTd a b ∧ minutosTd a b < 1440 := by
  unfold minutosTd
  omega

theorem duracionGrupo_cotas (ps : List Periodo) :
    0 ≤ duracionGrupo ps ∧ duracionGrupo ps < 1440 := by
  unfold duracionGrupo
  split
  · exact minutosTd_cotas _ _
  · exact ⟨le_refl 0, by norm_num⟩

theorem slotsAux_cotas (l : List Periodo) : ∀ runStart cur,
    ∀ pd ∈ slotsAux runStart cur l, 0 ≤ pd.duracion ∧ pd.duracion < 1440 := by
  induction l with
  | nil =>
    intro runStart cur pd hpd
    simp only [slotsAux, List.mem_singleton] at hpd
    subst hpd
    exact minutosTd_cotas _ _
  | cons q resto ih =>
    intro runStart cur pd hpd
    simp only [slotsAux] at hpd
    split at hpd
    · exact ih runStart q pd hpd
    · rcases List.mem_cons.mp hpd with h | h
      · subst h
        exact minutosTd_cotas _ _
      · exact ih q.horaInicio q pd h

theorem generaHorasAux_cotas (l : List Periodo) :
    ∀ pd ∈ generaHorasAux l, 0 ≤ pd.duracion ∧ pd.duracion < 1440 := by
  cases l with
  | nil => simp [generaHorasAux]
  | cons p resto => exact slotsAux_cotas resto p.horaInicio p

theorem generaPeriodosData_cotas (darken : String → String)
    (gIni gFin now : Int) (anchor : Option Periodo) :
    ∀ ps cm res, generaPeriodosData darken gIni gFin now anchor cm ps =
      Resultado.ok res →
    ∀ pd ∈ res.1, 0 ≤ pd.duracion ∧ pd.duracion < 1440 := by
  intro ps
  induction ps with
  | nil =>
    intro cm res h pd hpd
    simp only [generaPeriodosData] at h
    cases h
    simp at hpd
  | cons p resto ih =>
    intro cm res h pd hpd
    simp only [generaPeriodosData] at h
    split at h
    · simp at h
    · split at h
      · simp at h
      · split at h
        · simp at h
        · rename_i hrec
          cases h
          rcases List.mem_cons.mp hpd with hh | hh
          · subst hh
            exact minutosTd_cotas _ _
          · exact ih _ _ hrec pd hh

/-- C10: every duration the engine computes — the group duration, each
header slot's duration and each rendered period's duration — is the minute
count of the time difference reduced modulo 24 hours, hence always in
`[0, 1440)` and never negative; concretely, a period ending 30 minutes
before it starts yields a group duration of 1410 minutes and a 25-hour
period yields 60 minutes, the wrapped remainders, with no error raised. -/
theorem C10_duracion_envuelta_24h :
    (∀ periodos : List Periodo, ∀ g ∈ identifica_grupos periodos,
        0 ≤ g.duracion ∧ g.duracion < 1440) ∧
    (∀ durTotal : Int, ∀ controladores : List (Nat × List Periodo),
        ∀ pd ∈ genera_horas_de_inicio durTotal controladores,
        0 ≤ pd.duracion ∧ pd.duracion < 1440) ∧
    (∀ (darken : String → String) (gIni gFin now : Int)
        (anchor : Option Periodo) (ps : List Periodo) (cm : ColorManager)
        (res : List PeriodoData × ColorManager),
        generaPeriodosData darken gIni gFin now anchor cm ps =
          Resultado.ok res →
        ∀ pd ∈ res.1, 0 ≤ pd.duracion ∧ pd.duracion < 1440) ∧
    (identifica_grupos ejemploInvertido).map (fun g => g.duracion) = [1410] ∧
    (identifica_grupos ejemploLargo).map (fun g => g.duracion) = [60] := by
  refine ⟨?_, ?_, ?_, by decide, by decide⟩
  · intro periodos g hg
    simp only [identifica_grupos, List.mem_map] at hg
    obtain ⟨x, _, hx⟩ := hg
    rw [← hx]
    exact duracionGrupo_cotas _
  · intro durTotal controladores pd hpd
    exact generaHorasAux_cotas _ pd hpd
  · intro darken gIni gFin now anchor ps cm res h pd hpd
    exact generaPeriodosData_cotas darken gIni gFin now anchor ps cm res h pd hpd

/-- C10, witness: the bound applied to the concrete wrapped-duration
group. -/
theorem C10_duracion_envuelta_24h_witness :
    0 ≤ ((identifica_grupos ejemploInvertido).headD grupoVacio).duracion ∧
    ((identifica_grupos ejemploInvertido).headD grupoVacio).duracion < 1440 :=
  C10_duracion_envuelta_24h.1 ejemploInvertido
    ((identifica_grupos ejemploInvertido).headD grupoVacio) (by decide)

theorem interseca_iff (xs ys : List String) :
    interseca xs ys = true ↔ ∃ x ∈ xs, x ∈ ys := by
  simp [interseca, List.any_eq_true]

theorem mem_uneSectores_derecha (gs xs : List String) (y : String)
    (hy : y ∈ xs) : y ∈ uneSectores gs xs := by
  unfold uneSectores
  by_cases hg : y ∈ gs
  · exact List.mem_append_left _ hg
  · refine List.mem_append_right _ ?_
    simp [List.mem_filter, hy, hg]

theorem agrupa_cadena_tres (sect : Nat → List String) (a b c : Nat)
    (fuel : Nat) (hsa : sect a ≠ [])
    (hab : interseca (sect b) (sect a) = true)
    (hc : interseca (sect c) (uneSectores (sect a) (sect b)) = true) :
    agrupa sect (fuel + 1) [a, b, c] =
      [([a, b, c],
        uneSectores (uneSectores (sect a) (sect b)) (sect c))] := by
  simp only [agrupa, if_neg hsa, absorbe, hab, hc, if_true]

/-- C1, counterexample: with discovery order A, C, B (controller 1 shares
S1 with controller 2, controller 2 shares S2 with controller 3, 1 and 3
share nothing), the single absorption pass leaves controller 3 in its own
group, so the chained-absorption claim fails for this discovery order. -/
theorem C1_counterexample :
    interseca (sectoresDe ejemploCadenaACB 1) (sectoresDe ejemploCadenaACB 2) = true ∧
    interseca (sectoresDe ejemploCadenaACB 2) (sectoresDe ejemploCadenaACB 3) = true ∧
    interseca (sectoresDe ejemploCadenaACB 1) (sectoresDe ejemploCadenaACB 3) = false ∧
    (identifica_grupos ejemploCadenaACB).map
      (fun g => g.controladores.map Prod.fst) = [[1, 2], [3]] ∧
    ∀ g ∈ identifica_grupos ejemploCadenaACB,
      ¬(tieneControlador g 1 = true ∧ tieneControlador g 3 = true) := by
  decide

/-- C1, amended: absorption is one left-to-right pass over the unprocessed
controllers, not an iterated closure; transitive chaining is guaranteed when
the middle controller is scanned before the far one — with discovery order
A, B, C, if A shares a work-area with B and B shares one with C, all three
land in one group. -/
theorem C1_amended_cadena_en_orden (periodos : List Periodo) (a b c : Nat)
    (hclave : clavesControladores periodos = [a, b, c])
    (hab : interseca (sectoresDe periodos b) (sectoresDe periodos a) = true)
    (hbc : interseca (sectoresDe periodos c) (sectoresDe periodos b) = true) :
    ∃ g, identifica_grupos periodos = [g] ∧
      g.controladores.map Prod.fst = [a, b, c] := by
  have hsa : sectoresDe periodos a ≠ [] := by
    rcases (interseca_iff _ _).mp hab with ⟨x, _, hxa⟩
    intro h
    rw [h] at hxa
    simp at hxa
  have hc : interseca (sectoresDe periodos c)
      (uneSectores (sectoresDe periodos a) (sectoresDe periodos b)) = true := by
    rcases (interseca_iff _ _).mp hbc with ⟨x, hxc, hxb⟩
    exact (interseca_iff _ _).mpr ⟨x, hxc, mem_uneSectores_derecha _ _ _ hxb⟩
  unfold identifica_grupos
  rw [hclave]
  rw [show ([a, b, c] : List Nat).length = 2 + 1 by simp]
  rw [agrupa_cadena_tres _ a b c 2 hsa hab hc]
  exact ⟨_, rfl, by simp⟩

/-- C1, witness for the amended claim: the same A–B–C chain with the
favourable discovery order A, B, C ends up in a single group. -/
theorem C1_amended_cadena_en_orden_witness :
    ∃ g, identifica_grupos ejemploCadenaABC = [g] ∧
      g.controladores.map Prod.fst = [1, 2, 3] :=
  C1_amended_cadena_en_orden ejemploCadenaABC 1 2 3 (by decide) (by decide)
    (by decide)

theorem agrupa_cabeza (sect : Nat → List String) :
    ∀ fuel l x, x ∈ agrupa sect fuel l → ∃ c resto1, x.1 = c :: resto1 := by
  intro fuel
  induction fuel with
  | zero =>
    intro l x hx
    cases l <;> simp [agrupa] at hx
  | succ n ih =>
    intro l x hx
    cases l with
    | nil => simp [agrupa] at hx
    | cons c resto =>
      simp only [agrupa] at hx
      split at hx
      · exact ih _ _ hx
      · rcases List.mem_cons.mp hx with h | h
        · exact ⟨c, _, by rw [h]⟩
        · exact ih _ _ h

theorem identifica_grupos_estructura (periodos : List Periodo) :
    ∀ g ∈ identifica_grupos periodos,
    ∃ c, g.controladores.head? = some (c, periodosDe periodos c) ∧
      g.duracion = duracionGrupo (periodosDe periodos c) := by
  intro g hg
  simp only [identifica_grupos, List.mem_map] at hg
  obtain ⟨x, hx, hgx⟩ := hg
  obtain ⟨c, resto1, hx1⟩ := agrupa_cabeza _ _ _ x hx
  refine ⟨c, ?_, ?_⟩ <;> rw [← hgx] <;> simp [hx1]

/-- C6, counterexample: in a group whose seed controller works 08:00–10:00
while the other member also works 07:00–08:00, the earliest start across all
members is 07:00 and the latest end 10:00 (180 minutes apart), yet the
group's stored duration is 120 minutes — it is computed from the seed
controller's first and last periods only. -/
theorem C6_counterexample :
    (identifica_grupos ejemploSesgado).map
      (fun g => (g.duracion, inicioMasTempranoSpec g, finMasTardioSpec g)) =
      [(120, some 25200, some 36000)] ∧
    minutosTd 25200 36000 = 180 ∧ (120 : Int) ≠ 180 := by
  decide

/-- C6, amended: every returned group's duration equals the wrapped minute
count between the start of the FIRST listed period and the end of the LAST
listed period of the group's seed controller (the first-discovered member)
— not the earliest start / latest end across all members. -/
theorem C6_amended_duracion_semilla (periodos : List Periodo) :
    ∀ g ∈ identifica_grupos periodos,
    ∃ c, g.controladores.head? = some (c, periodosDe periodos c) ∧
      g.duracion = duracionGrupo (periodosDe periodos c) ∧
      ∀ p0 pn, (periodosDe periodos c).head? = some p0 →
        (periodosDe periodos c).getLast? = some pn →
        g.duracion = minutosTd p0.horaInicio pn.horaFin := by
  intro g hg
  obtain ⟨c, h1, h2⟩ := identifica_grupos_estructura periodos g hg
  refine ⟨c, h1, h2, ?_⟩
  intro p0 pn h0 hn
  rw [h2]
  unfold duracionGrupo
  rw [h0, hn]

/-- C6, witness: the amended statement instantiated at the skewed two-member
roster. -/
theorem C6_amended_duracion_semilla_witness :
    ∃ c, ((identifica_grupos ejemploSesgado).headD grupoVacio).controladores.head? =
        some (c, periodosDe ejemploSesgado c) ∧
      ((identifica_grupos ejemploSesgado).headD grupoVacio).duracion =
        duracionGrupo (periodosDe ejemploSesgado c) ∧
      ∀ p0 pn, (periodosDe ejemploSesgado c).head? = some p0 →
        (periodosDe ejemploSesgado c).getLast? = some pn →
        ((identifica_grupos ejemploSesgado).headD grupoVacio).duracion =
          minutosTd p0.horaInicio pn.horaFin :=
  C6_amended_duracion_semilla ejemploSesgado
    ((identifica_grupos ejemploSesgado).headD grupoVacio) (by decide)

/-- C8, counterexample: on an empty roster with a viewer supplied, the
pipeline does not degrade to an empty personal view — it raises the
`ValueError` of `generar_estadillo_personal`. -/
theorem C8_counterexample :
    genera_datos_estadillo darkenEjemplo nombresEjemplo [] (some 1) 0 =
      Resultado.error "No se encontró información para el usuario 1" := by
  decide

/-- C8, amended: an empty roster yields an empty group list, anchor marking
and per-group rendering degrade to empty outputs without error, but when a
viewer is supplied the personal-view step raises `ValueError` ("no
information found for the user") instead of producing an empty view. -/
theorem C8_amended_entrada_vacia :
    identifica_grupos [] = [] ∧
    (∀ (user : Option Nat) (now : Int),
      marca_anchor (identifica_grupos []) user now = []) ∧
    (∀ (darken : String → String) (nombres : Nat → String) (now : Int),
      genera_datos_estadillo darken nombres [] none now =
        Resultado.ok { grupos := [], vistaControlador := none }) ∧
    (∀ (darken : String → String) (nombres : Nat → String) (u : Nat) (now : Int),
      genera_datos_estadillo darken nombres [] (some u) now =
        Resultado.error
          ("No se encontró información para el usuario " ++ nombres u)) := by
  refine ⟨rfl, ?_, ?_, ?_⟩
  · intro user now
    cases user <;> rfl
  · intro darken nombres now
    rfl
  · intro darken nombres u now
    rfl

theorem ponAnchor_descomp (u : Nat) (p : Periodo) :
    ∀ grupos : List Grupo, (∃ g ∈ grupos, tieneControlador g u = true) →
    ∃ pre g post, grupos = pre ++ g :: post ∧
      (∀ g2 ∈ pre, tieneControlador g2 u = false) ∧
      tieneControlador g u = true ∧
      ponAnchorPrimerGrupoCon u p grupos =
        pre ++ ({ g with anchor := some p } :: post) := by
  intro grupos
  induction grupos with
  | nil => simp
  | cons g0 resto ih =>
    intro h
    by_cases hg : tieneControlador g0 u = true
    · exact ⟨[], g0, resto, rfl, by simp, hg,
        by simp [ponAnchorPrimerGrupoCon, hg]⟩
    · have hresto : ∃ g2 ∈ resto, tieneControlador g2 u = true := by
        rcases h with ⟨g2, hmem, hg2⟩
        rcases List.mem_cons.mp hmem with rfl | hm
        · exact absurd hg2 hg
        · exact ⟨g2, hm, hg2⟩
      obtain ⟨pre, gm, post, heq, hpre, hgm, hpon⟩ := ih hresto
      refine ⟨g0 :: pre, gm, post, by rw [heq]; rfl, ?_, hgm, ?_⟩
      · intro g2 hg2
        rcases List.mem_cons.mp hg2 with rfl | hm
        · simpa using hg
        · exact hpre g2 hm
      · simp only [ponAnchorPrimerGrupoCon, if_neg hg, hpon]
        rfl

theorem buscaAnchorUsuario_encuentra (grupos : List Grupo) (u : Nat)
    (hg : grupos.any (fun g => tieneControlador g u) = true) :
    ∀ activos : List Periodo, (∃ p ∈ activos, p.controlador = u) →
    ∃ p ∈ activos, p.controlador = u ∧
      buscaAnchorUsuario grupos u activos =
        some (ponAnchorPrimerGrupoCon u p grupos) := by
  intro activos
  induction activos with
  | nil => simp
  | cons p resto ih =>
    intro h
    by_cases hp : p.controlador = u
    · refine ⟨p, List.mem_cons_self p resto, hp, ?_⟩
      simp [buscaAnchorUsuario, hp, hg]
    · have hresto : ∃ q ∈ resto, q.controlador = u := by
        rcases h with ⟨q, hqm, hq⟩
        rcases List.mem_cons.mp hqm with rfl | hm
        · exact absurd hq hp
        · exact ⟨q, hm, hq⟩
      obtain ⟨q, hqm, hq, hbusca⟩ := ih hresto
      refine ⟨q, List.mem_cons_of_mem _ hqm, hq, ?_⟩
      simpa [buscaAnchorUsuario, hp] using hbusca

theorem buscaAnchorUsuario_none (grupos : List Grupo) (u : Nat) :
    ∀ activos : List Periodo, (∀ p ∈ activos, p.controlador ≠ u) →
      buscaAnchorUsuario grupos u activos = none := by
  intro activos
  induction activos with
  | nil => intro _; rfl
  | cons p resto ih =>
    intro h
    have hp : p.controlador ≠ u := h p (List.mem_cons_self p resto)
    have hif : (p.controlador == u) = false := by simp [hp]
    simp only [buscaAnchorUsuario, hif, Bool.false_eq_true, if_false]
    exact ih (fun q hq => h q (List.mem_cons_of_mem _ hq))

theorem indiceGrupoMax_ne_none (g : Grupo) (l : List Grupo) :
    indiceGrupoMax (g :: l) ≠ none := by
  simp only [indiceGrupoMax]
  cases indiceGrupoMax l with
  | none => simp
  | some x =>
    obtain ⟨i, h⟩ := x
    by_cases hc : h.controladores.length > g.controladores.length <;>
      simp [hc]

theorem indiceGrupoMax_spec :
    ∀ grupos : List Grupo, ∀ i g, indiceGrupoMax grupos = some (i, g) →
      grupos[i]? = some g ∧
      (∀ g2 ∈ grupos, g2.controladores.length ≤ g.controladores.length) ∧
      (∀ j g2, j < i → grupos[j]? = some g2 →
        g2.controladores.length < g.controladores.length) := by
  intro grupos
  induction grupos with
  | nil => intro i g h; simp [indiceGrupoMax] at h
  | cons g0 resto ih =>
    intro i g h
    simp only [indiceGrupoMax] at h
    cases hrec : indiceGrupoMax resto with
    | none =>
      rw [hrec] at h
      have hresto : resto = [] := by
        cases resto with
        | nil => rfl
        | cons g1 resto1 => exact absurd hrec (indiceGrupoMax_ne_none g1 resto1)
      obtain ⟨rfl, rfl⟩ : 0 = i ∧ g0 = g := by
        simpa using h
      subst hresto
      refine ⟨rfl, ?_, ?_⟩
      · intro g2 hg2
        simp at hg2
        rw [hg2]
      · intro j g2 hj
        omega
    | some x =>
      obtain ⟨i1, gm1⟩ := x
      rw [hrec] at h
      obtain ⟨hget, hmax, hfirst⟩ := ih i1 gm1 hrec
      have h2 : (if gm1.controladores.length > g0.controladores.length then
          some (i1 + 1, gm1) else some (0, g0)) = some (i, g) := h
      by_cases hgt : gm1.controladores.length > g0.controladores.length
      · rw [if_pos hgt] at h2
        obtain ⟨rfl, rfl⟩ : i1 + 1 = i ∧ gm1 = g := by simpa using h2
        refine ⟨by simpa using hget, ?_, ?_⟩
        · intro g2 hg2
          rcases List.mem_cons.mp hg2 with rfl | hm
          · exact le_of_lt hgt
          · exact hmax g2 hm
        · intro j g2 hj hg2
          cases j with
          | zero =>
            simp at hg2
            rw [← hg2]
            exact hgt
          | succ j1 =>
            simp at hg2
            exact hfirst j1 g2 (by omega) hg2
      · rw [if_neg hgt] at h2
        obtain ⟨rfl, rfl⟩ : 0 = i ∧ g0 = g := by simpa using h2
        refine ⟨by simp, ?_, ?_⟩
        · intro g2 hg2
          rcases List.mem_cons.mp hg2 with rfl | hm
          · exact le_refl _
          · exact le_trans (hmax g2 hm) (by omega)
        · intro j g2 hj
          omega

/-- C3, counterexample: with no viewer, one active period living in the
singleton group and a larger two-member group with no active period, the
code anchors nothing at all — the claim would anchor the singleton group,
the largest among the groups that have an active period. -/
theorem C3_counterexample :
    (periodosActivos (identifica_grupos ejemploAnchor) 6000).length = 1 ∧
    (identifica_grupos ejemploAnchor).map
      (fun g => g.controladores.length) = [2, 1] ∧
    (periodosActivos (identifica_grupos ejemploAnchor) 6000).all
      (fun p => p.controlador == 3) = true ∧
    (marca_anchor (identifica_grupos ejemploAnchor) none 6000).map
      (fun g => g.anchor) = [none, none] := by
  decide

/-- C3, amended: (1) a viewer owning an active period gets the anchor on the
first group containing the viewer, set to an active period of the viewer,
all other groups untouched; (2) otherwise — with no viewer, or with a
supplied viewer who owns no active period — when some period is active, the
code takes the first group of maximal member count among ALL groups: if
that group owns an active period its anchor becomes the first such period,
and otherwise NO anchor is set anywhere, even if a smaller group has an
active period; (3) when no period is active, nothing is anchored. -/
theorem C3_amended_anchor :
    (∀ (grupos : List Grupo) (u : Nat) (now : Int),
      (∃ p ∈ periodosActivos grupos now, p.controlador = u) →
      (∃ g ∈ grupos, tieneControlador g u = true) →
      ∃ pre g post p, grupos = pre ++ g :: post ∧
        (∀ g2 ∈ pre, tieneControlador g2 u = false) ∧
        tieneControlador g u = true ∧
        p ∈ periodosActivos grupos now ∧ p.controlador = u ∧
        marca_anchor grupos (some u) now =
          pre ++ ({ g with anchor := some p } :: post)) ∧
    (∀ (grupos : List Grupo) (user : Option Nat) (now : Int),
      periodosActivos grupos now ≠ [] →
      (∀ u, user = some u → ∀ p ∈ periodosActivos grupos now,
        p.controlador ≠ u) →
      ∃ i g, grupos[i]? = some g ∧
        (∀ g2 ∈ grupos, g2.controladores.length ≤ g.controladores.length) ∧
        (∀ j g2, j < i → grupos[j]? = some g2 →
          g2.controladores.length < g.controladores.length) ∧
        ((∃ p, (periodosActivos grupos now).find?
            (fun q => tieneControlador g q.controlador) = some p ∧
          marca_anchor grupos user now =
            grupos.set i { g with anchor := some p }) ∨
         ((∀ p ∈ periodosActivos grupos now,
            tieneControlador g p.controlador = false) ∧
          marca_anchor grupos user now = grupos))) ∧
    (∀ (grupos : List Grupo) (user : Option Nat) (now : Int),
      periodosActivos grupos now = [] → marca_anchor grupos user now = grupos) := by
  refine ⟨?_, ?_, ?_⟩
  · intro grupos u now hact hgrp
    have hany : grupos.any (fun g => tieneControlador g u) = true := by
      rcases hgrp with ⟨g, hg, ht⟩
      exact List.any_eq_true.mpr ⟨g, hg, ht⟩
    obtain ⟨p, hpmem, hpu, hbusca⟩ :=
      buscaAnchorUsuario_encuentra grupos u hany (periodosActivos grupos now) hact
    obtain ⟨pre, g, post, heq, hpre, hg, hpon⟩ := ponAnchor_descomp u p grupos hgrp
    refine ⟨pre, g, post, p, heq, hpre, hg, hpmem, hpu, ?_⟩
    simp only [marca_anchor, hbusca, hpon]
  · intro grupos user now hact huser
    have hmm : marca_anchor grupos user now =
        marcaMax grupos (periodosActivos grupos now) := by
      cases user with
      | none => rfl
      | some u =>
        have hnone := buscaAnchorUsuario_none grupos u
          (periodosActivos grupos now) (huser u rfl)
        simp only [marca_anchor, hnone]
    cases hgr : grupos with
    | nil =>
      subst hgr
      simp [periodosActivos] at hact
    | cons g0 resto =>
      rw [← hgr]
      cases hidx : indiceGrupoMax grupos with
      | none =>
        rw [hgr] at hidx
        exact absurd hidx (indiceGrupoMax_ne_none g0 resto)
      | some x =>
        obtain ⟨i, g⟩ := x
        obtain ⟨hget, hmax, hfirst⟩ := indiceGrupoMax_spec grupos i g hidx
        refine ⟨i, g, hget, hmax, hfirst, ?_⟩
        have hne : (periodosActivos grupos now).isEmpty = false := by
          cases hpa : periodosActivos grupos now with
          | nil => exact absurd hpa hact
          | cons a b => simp
        cases hfind : (periodosActivos grupos now).find?
            (fun q => tieneControlador g q.controlador) with
        | some p =>
          left
          refine ⟨p, rfl, ?_⟩
          rw [hmm]
          simp only [marcaMax, hne, hidx, hfind]
          rfl
        | none =>
          right
          constructor
          · intro p hp
            have := List.find?_eq_none.mp hfind p hp
            simpa using this
          · rw [hmm]
            simp only [marcaMax, hne, hidx, hfind]
            rfl
  · intro grupos user now h
    cases user with
    | none => simp [marca_anchor, h, marcaMax]
    | some u => simp [marca_anchor, h, buscaAnchorUsuario, marcaMax]

/-- C3, witness: the viewer-priority clause applied to the concrete
scenario where viewer 3's singleton group wins over the larger active
group. -/
theorem C3_amended_anchor_witness :
    ∃ pre g post p,
      identifica_grupos ejemploAnchorViewer = pre ++ g :: post ∧
      (∀ g2 ∈ pre, tieneControlador g2 3 = false) ∧
      tieneControlador g 3 = true ∧
      p ∈ periodosActivos (identifica_grupos ejemploAnchorViewer) 6000 ∧
      p.controlador = 3 ∧
      marca_anchor (identifica_grupos ejemploAnchorViewer) (some 3) 6000 =
        pre ++ ({ g with anchor := some p } :: post) :=
  C3_amended_anchor.1 (identifica_grupos ejemploAnchorViewer) 3 6000
    (by decide) (by decide)

theorem buscaColor_append_nuevo (s e p : String) :
    ∀ sc, buscaColor sc s = none →
      buscaColor (sc ++ [(s, e, p)]) s = some (e, p) := by
  intro sc
  induction sc with
  | nil =>
    intro _
    simp [buscaColor]
  | cons x resto ih =>
    intro h
    obtain ⟨t, e2, p2⟩ := x
    simp only [buscaColor, List.cons_append] at h ⊢
    by_cases ht : t = s
    · rw [if_pos ht] at h
      cases h
    · rw [if_neg ht] at h ⊢
      exact ih h

theorem get_color_casos (darken : String → String) (cm : ColorManager)
    (s : String) (f : Bool) :
    (∃ e p, buscaColor cm.sectorColors s = some (e, p) ∧
      get_color darken cm s f = Resultado.ok (if f then e else p, cm)) ∨
    (buscaColor cm.sectorColors s = none ∧ cm.availableColors = [] ∧
      get_color darken cm s f = Resultado.error "IndexError") ∨
    (∃ c0 r0, buscaColor cm.sectorColors s = none ∧
      cm.availableColors = c0 :: r0 ∧
      get_color darken cm s f = Resultado.ok (if f then c0 else darken c0,
        { sectorColors := cm.sectorColors ++ [(s, c0, darken c0)]
          availableColors := r0 })) := by
  unfold get_color
  cases hb : buscaColor cm.sectorColors s with
  | some pair =>
    obtain ⟨e, p⟩ := pair
    exact Or.inl ⟨e, p, rfl, rfl⟩
  | none =>
    cases hav : cm.availableColors with
    | nil => exact Or.inr (Or.inl ⟨rfl, rfl, rfl⟩)
    | cons c0 r0 => exact Or.inr (Or.inr ⟨c0, r0, rfl, rfl, rfl⟩)

theorem ejecutaColores_invariante (darken : String → String) :
    ∀ (reqs : List (String × Bool)) (cm0 cm : ColorManager),
      ejecutaColores darken cm0 reqs = Resultado.ok cm →
      coloresEjecutivos cm0 ++ cm0.availableColors = coloresIniciales →
      coloresEjecutivos cm ++ cm.availableColors = coloresIniciales := by
  intro reqs
  induction reqs with
  | nil =>
    intro cm0 cm h hinv
    simp only [ejecutaColores] at h
    cases h
    exact hinv
  | cons sf resto ih =>
    intro cm0 cm h hinv
    obtain ⟨s, f⟩ := sf
    simp only [ejecutaColores] at h
    rcases get_color_casos darken cm0 s f with
      ⟨e, p, _, hg⟩ | ⟨_, _, hg⟩ | ⟨c0, r0, _, hav, hg⟩
    · rw [hg] at h
      exact ih cm0 cm h hinv
    · rw [hg] at h
      cases h
    · rw [hg] at h
      refine ih _ cm h ?_
      simp only [coloresEjecutivos, List.map_append]
      rw [List.append_assoc]
      simpa [coloresEjecutivos, hav] using hinv

/-- C7, counterexample: after eleven distinct work-areas, sectors "0" and
"10" hold the identical executive colour `#FF5733` although the palette
still has nine unused entries — the twenty-entry palette repeats its ten
hues, so uniqueness is not maintained while unused entries remain. -/
theorem C7_counterexample :
    (resultadoOk? (ejecutaColores darkenEjemplo colorManagerInicial
        solicitudes11)).map
      (fun cm => ((buscaColor cm.sectorColors "0").map Prod.fst,
        (buscaColor cm.sectorColors "10").map Prod.fst,
        cm.availableColors.length)) =
    some (some "#FF5733", some "#FF5733", 9) := by
  decide

/-- C7, amended: within one allocator instance `get_color` is deterministic —
once a (work-area, flag) pair has produced a colour, repeating the call
returns the identical colour and leaves the whole allocator state unchanged;
and executive colours are pairwise distinct as long as at most TEN distinct
work-areas have been assigned (the palette's ten hues appear twice in its
twenty entries, so distinctness is guaranteed only for the first ten
work-areas, not while any unused entry remains). -/
theorem C7_determinismo_y_unicidad :
    (∀ (darken : String → String) (cm : ColorManager) (s : String) (f : Bool)
        (c : String) (cm2 : ColorManager),
      get_color darken cm s f = Resultado.ok (c, cm2) →
      get_color darken cm2 s f = Resultado.ok (c, cm2)) ∧
    (∀ (darken : String → String) (reqs : List (String × Bool))
        (cm : ColorManager),
      ejecutaColores darken colorManagerInicial reqs = Resultado.ok cm →
      cm.sectorColors.length ≤ 10 →
      (coloresEjecutivos cm).Nodup) := by
  constructor
  · intro darken cm s f c cm2 h
    rcases get_color_casos darken cm s f with
      ⟨e, p, hb, hg⟩ | ⟨_, _, hg⟩ | ⟨c0, r0, hb, _, hg⟩
    · rw [hg] at h
      obtain ⟨rfl, rfl⟩ : (if f then e else p) = c ∧ cm = cm2 := by
        simpa using h
      exact hg
    · rw [hg] at h
      cases h
    · rw [hg] at h
      obtain ⟨rfl, rfl⟩ : (if f then c0 else darken c0) = c ∧
          ({ sectorColors := cm.sectorColors ++ [(s, c0, darken c0)]
             availableColors := r0 } : ColorManager) = cm2 := by
        simpa using h
      have hb2 : buscaColor (cm.sectorColors ++ [(s, c0, darken c0)]) s =
          some (c0, darken c0) := buscaColor_append_nuevo s c0 (darken c0) _ hb
      simp [get_color, hb2]
  · intro darken reqs cm h hlen
    have hinv := ejecutaColores_invariante darken reqs colorManagerInicial cm h
      (by rfl)
    have hlen2 : (coloresEjecutivos cm).length ≤ 10 := by
      simpa [coloresEjecutivos] using hlen
    have htake : coloresEjecutivos cm =
        coloresIniciales.take (coloresEjecutivos cm).length := by
      rw [← hinv, List.take_left]
    rw [htake]
    have h10 : (coloresIniciales.take 10).Nodup := by decide
    have heq : coloresIniciales.take (coloresEjecutivos cm).length =
        (coloresIniciales.take 10).take (coloresEjecutivos cm).length := by
      rw [List.take_take, min_eq_left hlen2]
    rw [heq]
    exact h10.sublist (List.take_sublist _ _)

/-- C7, witness: the determinism clause applied to a concrete second call —
repeating `get_color` for sector ASV on the state produced by its first
call returns the same colour and the same state. -/
theorem C7_determinismo_y_unicidad_witness :
    get_color darkenEjemplo
      { sectorColors := [("ASV", "#FF5733", "#FF5733*")]
        availableColors := coloresIniciales.drop 1 } "ASV" true =
    Resultado.ok ("#FF5733",
      { sectorColors := [("ASV", "#FF5733", "#FF5733*")]
        availableColors := coloresIniciales.drop 1 }) :=
  C7_determinismo_y_unicidad.1 darkenEjemplo colorManagerInicial "ASV" true
    "#FF5733" _ (by decide)

theorem buscaColor_none_iff (s : String) :
    ∀ sc, buscaColor sc s = none ↔ ∀ x ∈ sc, x.1 ≠ s := by
  intro sc
  induction sc with
  | nil => simp [buscaColor]
  | cons x resto ih =>
    obtain ⟨t, e, p⟩ := x
    simp only [buscaColor]
    by_cases ht : t = s
    · subst ht
      simp
    · simp [ht, ih]

theorem buscaColor_none_notmem (s : String)
    (sc : List (String × String × String)) (hb : buscaColor sc s = none) :
    s ∉ sc.map (fun x => x.1) := by
  intro hmem
  obtain ⟨x, hx, hx1⟩ := List.mem_map.mp hmem
  exact (buscaColor_none_iff s sc).mp hb x hx hx1

theorem get_color_error_iff (darken : String → String) (cm : ColorManager)
    (s : String) (f : Bool) :
    (∃ e, get_color darken cm s f = Resultado.error e) ↔
      (buscaColor cm.sectorColors s = none ∧ cm.availableColors = []) := by
  rcases get_color_casos darken cm s f with
    ⟨e, p, hb, hg⟩ | ⟨hb, hav, hg⟩ | ⟨c0, r0, hb, hav, hg⟩
  · simp [hg, hb]
  · simp [hg, hb, hav]
  · simp [hg, hb, hav]

theorem ejecutaColores_longitud (darken : String → String) :
    ∀ (reqs : List (String × Bool)) (cm0 cm : ColorManager),
      ejecutaColores darken cm0 reqs = Resultado.ok cm →
      cm0.sectorColors.length + cm0.availableColors.length = 20 →
      cm.sectorColors.length + cm.availableColors.length = 20 := by
  intro reqs
  induction reqs with
  | nil =>
    intro cm0 cm h hsum
    simp only [ejecutaColores] at h
    cases h
    exact hsum
  | cons sf resto ih =>
    intro cm0 cm h hsum
    obtain ⟨s, f⟩ := sf
    simp only [ejecutaColores] at h
    rcases get_color_casos darken cm0 s f with
      ⟨e, p, _, hg⟩ | ⟨_, _, hg⟩ | ⟨c0, r0, _, hav, hg⟩
    · rw [hg] at h
      exact ih cm0 cm h hsum
    · rw [hg] at h
      cases h
    · rw [hg] at h
      refine ih _ cm h ?_
      have hr : cm0.availableColors.length = r0.length + 1 := by
        rw [hav]
        simp
      simp only [List.length_append, List.length_cons, List.length_nil]
      omega

theorem ejecutaColores_ok (darken : String → String) :
    ∀ (reqs : List (String × Bool)) (cm : ColorManager),
      (sectoresAsignados cm).Nodup →
      cm.sectorColors.length + cm.availableColors.length = 20 →
      ((sectoresAsignados cm).toFinset ∪ (reqs.map Prod.fst).toFinset).card ≤ 20 →
      ∃ cm2, ejecutaColores darken cm reqs = Resultado.ok cm2 := by
  intro reqs
  induction reqs with
  | nil =>
    intro cm _ _ _
    exact ⟨cm, rfl⟩
  | cons sf resto ih =>
    intro cm hnd hsum hcard
    obtain ⟨s, f⟩ := sf
    have hsub0 : ((sectoresAsignados cm).toFinset ∪
        (resto.map Prod.fst).toFinset) ⊆
        ((sectoresAsignados cm).toFinset ∪
          (((s, f) :: resto).map Prod.fst).toFinset) := by
      simp only [List.map_cons, List.toFinset_cons]
      intro x hx
      rcases Finset.mem_union.mp hx with h | h
      · exact Finset.mem_union_left _ h
      · exact Finset.mem_union_right _ (Finset.mem_insert_of_mem h)
    rcases get_color_casos darken cm s f with
      ⟨e, p, hb, hg⟩ | ⟨hb, hav, hg⟩ | ⟨c0, r0, hb, hav, hg⟩
    · obtain ⟨cm2, h2⟩ :=
        ih cm hnd hsum (le_trans (Finset.card_le_card hsub0) hcard)
      exact ⟨cm2, by simp [ejecutaColores, hg, h2]⟩
    · exfalso
      have hsmem : s ∉ sectoresAsignados cm :=
        buscaColor_none_notmem s cm.sectorColors hb
      have hlen20 : cm.sectorColors.length = 20 := by
        have hz : cm.availableColors.length = 0 := by
          rw [hav]
          rfl
        omega
      have hky : (sectoresAsignados cm).toFinset.card = 20 := by
        rw [List.toFinset_card_of_nodup hnd]
        simpa [sectoresAsignados] using hlen20
      have hins : insert s (sectoresAsignados cm).toFinset ⊆
          (sectoresAsignados cm).toFinset ∪
            (((s, f) :: resto).map Prod.fst).toFinset := by
        intro x hx
        rcases Finset.mem_insert.mp hx with rfl | h
        · refine Finset.mem_union_right _ ?_
          simp
        · exact Finset.mem_union_left _ h
      have hc21 : (insert s (sectoresAsignados cm).toFinset).card = 21 := by
        rw [Finset.card_insert_of_not_mem (by simpa using hsmem), hky]
      have hle := Finset.card_le_card hins
      have hle2 := le_trans hle hcard
      omega
    · have hsmem : s ∉ sectoresAsignados cm :=
        buscaColor_none_notmem s cm.sectorColors hb
      have hndN : (sectoresAsignados
          ({ sectorColors := cm.sectorColors ++ [(s, c0, darken c0)]
             availableColors := r0 } : ColorManager)).Nodup := by
        simp only [sectoresAsignados, List.map_append, List.map_cons,
          List.map_nil]
        rw [List.nodup_append]
        refine ⟨hnd, by simp, ?_⟩
        intro a ha hb2
        simp only [List.mem_cons, List.not_mem_nil, or_false] at hb2
        subst hb2
        exact hsmem ha
      have hsumN :
          (cm.sectorColors ++ [(s, c0, darken c0)]).length + r0.length = 20 := by
        have hr : cm.availableColors.length = r0.length + 1 := by
          rw [hav]
          simp
        simp only [List.length_append, List.length_cons, List.length_nil]
        omega
      have hsubN : ((sectoresAsignados
          ({ sectorColors := cm.sectorColors ++ [(s, c0, darken c0)]
             availableColors := r0 } : ColorManager)).toFinset ∪
          (resto.map Prod.fst).toFinset) ⊆
          ((sectoresAsignados cm).toFinset ∪
            (((s, f) :: resto).map Prod.fst).toFinset) := by
        simp only [sectoresAsignados, List.map_append, List.toFinset_append,
          List.map_cons, List.toFinset_cons]
        intro x hx
        simp only [Finset.mem_union, Finset.mem_insert, List.toFinset_cons,
          List.map_nil, List.toFinset_nil, Finset.mem_singleton,
          List.mem_toFinset] at hx ⊢
        rcases hx with (h | h) | h
        · exact Or.inl h
        · rcases h with h | h
          · exact Or.inr (Or.inl h)
          · simp at h
        · exact Or.inr (Or.inr h)
      obtain ⟨cm2, h2⟩ := ih _ hndN hsumN
        (le_trans (Finset.card_le_card hsubN) hcard)
      exact ⟨cm2, by simp [ejecutaColores, hg, h2]⟩

/-- C9: the palette pop succeeds exactly while the sector is cached or fewer
than twenty distinct work-areas have been assigned — the assigned count plus
the remaining palette is always twenty, a fresh request fails iff the sector
is new and the palette is empty, any request sequence naming at most twenty
distinct work-areas completes without error, and the concrete run of
twenty-one distinct work-areas exhausts the twenty entries and raises
`IndexError` on the twenty-first. -/
theorem C9_agotamiento_paleta :
    (∀ (darken : String → String) (reqs : List (String × Bool)),
      (reqs.map Prod.fst).toFinset.card ≤ 20 →
      ∃ cm, ejecutaColores darken colorManagerInicial reqs = Resultado.ok cm) ∧
    (∀ (darken : String → String) (cm : ColorManager) (s : String) (f : Bool),
      (∃ e, get_color darken cm s f = Resultado.error e) ↔
        (buscaColor cm.sectorColors s = none ∧ cm.availableColors = [])) ∧
    (∀ (darken : String → String) (reqs : List (String × Bool))
        (cm : ColorManager),
      ejecutaColores darken colorManagerInicial reqs = Resultado.ok cm →
      cm.sectorColors.length + cm.availableColors.length = 20) ∧
    (resultadoOk? (ejecutaColores darkenEjemplo colorManagerInicial
        (solicitudes21.take 20))).map (fun cm =>
      (cm.sectorColors.length, cm.availableColors.length)) = some (20, 0) ∧
    ejecutaColores darkenEjemplo colorManagerInicial solicitudes21 =
      Resultado.error "IndexError" := by
  refine ⟨?_, ?_, ?_, by decide, by decide⟩
  · intro darken reqs hcard
    exact ejecutaColores_ok darken reqs colorManagerInicial (by simp
      [sectoresAsignados, colorManagerInicial]) (by rfl)
      (by simpa [sectoresAsignados, colorManagerInicial] using hcard)
  · intro darken cm s f
    exact get_color_error_iff darken cm s f
  · intro darken reqs cm h
    exact ejecutaColores_longitud darken reqs colorManagerInicial cm h (by rfl)

/-- C9, witness: eleven distinct work-areas stay within the precondition and
the whole run succeeds. -/
theorem C9_agotamiento_paleta_witness :
    ∃ cm, ejecutaColores darkenEjemplo colorManagerInicial solicitudes11 =
      Resultado.ok cm :=
  C9_agotamiento_paleta.1 darkenEjemplo solicitudes11 (by decide)

theorem cadena_ne_nil (s e : Int) (ps : List Periodo)
    (h : cadena s e ps = true) : ps ≠ [] := by
  cases ps with
  | nil => simp [cadena] at h
  | cons p resto => simp

theorem cadena_cabeza (s e : Int) (p : Periodo) (resto : List Periodo)
    (h : cadena s e (p :: resto) = true) : p.horaInicio = s := by
  cases resto with
  | nil =>
    simp only [cadena, Bool.and_eq_true, decide_eq_true_eq] at h
    exact h.1.1
  | cons q resto1 =>
    simp only [cadena, Bool.and_eq_true, decide_eq_true_eq] at h
    exact h.1.1

theorem cadena_cola (s e : Int) (p q : Periodo) (resto : List Periodo)
    (h : cadena s e (p :: q :: resto) = true) :
    cadena p.horaFin e (q :: resto) = true := by
  simp only [cadena, Bool.and_eq_true, decide_eq_true_eq] at h
  simp only [cadena, Bool.and_eq_true, decide_eq_true_eq]
  exact h.2

theorem cadena_ultimo (s e : Int) :
    ∀ ps, cadena s e ps = true →
      ps.getLast?.map (fun p => p.horaFin) = some e := by
  intro ps
  induction ps generalizing s with
  | nil => intro h; simp [cadena] at h
  | cons p resto ih =>
    intro h
    cases resto with
    | nil =>
      simp only [cadena, Bool.and_eq_true, decide_eq_true_eq] at h
      simp [h.2]
    | cons q resto1 =>
      have h2 := cadena_cola s e p q resto1 h
      rw [List.getLast?_cons_cons]
      exact ih p.horaFin h2

theorem cadena_cotas (s e : Int) :
    ∀ ps, cadena s e ps = true →
      ∀ p ∈ ps, s ≤ p.horaInicio ∧ p.horaInicio < p.horaFin ∧ p.horaFin ≤ e := by
  intro ps
  induction ps generalizing s with
  | nil => intro h; simp [cadena] at h
  | cons p resto ih =>
    intro h x hx
    cases resto with
    | nil =>
      simp only [cadena, Bool.and_eq_true, decide_eq_true_eq] at h
      rcases List.mem_cons.mp hx with rfl | hm
      · obtain ⟨⟨h1, h2⟩, h3⟩ := h
        constructor
        · omega
        · omega
      · simp at hm
    | cons q resto1 =>
      have hcab : p.horaInicio = s := cadena_cabeza s e p _ h
      have h2 := cadena_cola s e p q resto1 h
      have hfin : s < p.horaFin := by
        simp only [cadena, Bool.and_eq_true, decide_eq_true_eq] at h
        exact h.1.2
      rcases List.mem_cons.mp hx with rfl | hm
      · have hq := ih x.horaFin h2 q (List.mem_cons_self q resto1)
        have hqcab : q.horaInicio = x.horaFin := cadena_cabeza _ e q resto1 h2
        refine ⟨by omega, by omega, ?_⟩
        omega
      · have hxr := ih p.horaFin h2 x hm
        refine ⟨by omega, hxr.2.1, hxr.2.2⟩

theorem cadena_siguiente (s e : Int) :
    ∀ ps, cadena s e ps = true →
      ∀ p ∈ ps, p.horaFin = e ∨ ∃ q ∈ ps, q.horaInicio = p.horaFin := by
  intro ps
  induction ps generalizing s with
  | nil => intro h; simp [cadena] at h
  | cons p resto ih =>
    intro h x hx
    cases resto with
    | nil =>
      rcases List.mem_cons.mp hx with rfl | hm
      · simp only [cadena, Bool.and_eq_true, decide_eq_true_eq] at h
        exact Or.inl h.2
      · simp at hm
    | cons q resto1 =>
      have h2 := cadena_cola s e p q resto1 h
      rcases List.mem_cons.mp hx with rfl | hm
      · have hqcab : q.horaInicio = x.horaFin := cadena_cabeza _ e q resto1 h2
        exact Or.inr ⟨q, List.mem_cons_of_mem _ (List.mem_cons_self q resto1), hqcab⟩
      · rcases ih p.horaFin h2 x hm with hfin | ⟨q2, hq2, hq2s⟩
        · exact Or.inl hfin
        · exact Or.inr ⟨q2, List.mem_cons_of_mem _ hq2, hq2s⟩

theorem insertaOrdenado_perm (p : Periodo) :
    ∀ l, (insertaOrdenado p l).Perm (p :: l) := by
  intro l
  induction l with
  | nil => simp [insertaOrdenado]
  | cons q qs ih =>
    simp only [insertaOrdenado]
    split
    · exact List.Perm.refl _
    · exact (ih.cons q).trans (List.Perm.swap p q qs)

theorem insertaOrdenado_sorted (p : Periodo) :
    ∀ l, l.Pairwise (fun a b => a.horaInicio ≤ b.horaInicio) →
      (insertaOrdenado p l).Pairwise
        (fun a b => a.horaInicio ≤ b.horaInicio) := by
  intro l
  induction l with
  | nil =>
    intro _
    simp [insertaOrdenado]
  | cons q qs ih =>
    intro hp
    have hqs := List.pairwise_cons.mp hp
    simp only [insertaOrdenado]
    split
    · rename_i hlt
      refine List.Pairwise.cons ?_ hp
      intro b hb
      rcases List.mem_cons.mp hb with rfl | hm
      · omega
      · have := hqs.1 b hm
        omega
    · rename_i hge
      refine List.Pairwise.cons ?_ (ih hqs.2)
      intro b hb
      have hmem := (insertaOrdenado_perm p qs).mem_iff.mp hb
      rcases List.mem_cons.mp hmem with rfl | hm
      · omega
      · exact hqs.1 b hm

theorem foldl_inserta_perm :
    ∀ (l acc : List Periodo),
      (l.foldl (fun acc p => insertaOrdenado p acc) acc).Perm (acc ++ l) := by
  intro l
  induction l with
  | nil =>
    intro acc
    simp
  | cons p resto ih =>
    intro acc
    simp only [List.foldl_cons]
    refine (ih (insertaOrdenado p acc)).trans ?_
    have h1 : ((insertaOrdenado p acc) ++ resto).Perm ((p :: acc) ++ resto) :=
      (insertaOrdenado_perm p acc).append_right resto
    refine h1.trans ?_
    simpa using List.perm_middle.symm

theorem foldl_inserta_sorted :
    ∀ (l acc : List Periodo),
      acc.Pairwise (fun a b => a.horaInicio ≤ b.horaInicio) →
      (l.foldl (fun acc p => insertaOrdenado p acc) acc).Pairwise
        (fun a b => a.horaInicio ≤ b.horaInicio) := by
  intro l
  induction l with
  | nil =>
    intro acc h
    simpa using h
  | cons p resto ih =>
    intro acc h
    simp only [List.foldl_cons]
    exact ih _ (insertaOrdenado_sorted p acc h)

theorem ordenaPorInicio_perm (l : List Periodo) :
    (ordenaPorInicio l).Perm l := by
  simpa [ordenaPorInicio] using foldl_inserta_perm l []

theorem ordenaPorInicio_sorted (l : List Periodo) :
    (ordenaPorInicio l).Pairwise (fun a b => a.horaInicio ≤ b.horaInicio) :=
  foldl_inserta_sorted l [] (by simp)

theorem sorted_ultimo_max :
    ∀ (l : List Periodo),
      l.Pairwise (fun a b => a.horaInicio ≤ b.horaInicio) →
      ∀ q ∈ l, ∀ plast, l.getLast? = some plast →
        q.horaInicio ≤ plast.horaInicio := by
  intro l
  induction l with
  | nil => simp
  | cons p resto ih =>
    intro hs q hq plast hlast
    cases resto with
    | nil =>
      simp at hlast hq
      subst hlast
      subst hq
      exact le_refl _
    | cons r rs =>
      rw [List.getLast?_cons_cons] at hlast
      have hpair := List.pairwise_cons.mp hs
      have hmemlast : plast ∈ r :: rs := by
        have hne : (r :: rs) ≠ [] := by simp
        have := List.getLast?_eq_getLast (r :: rs) hne
        rw [this] at hlast
        obtain rfl : (r :: rs).getLast hne = plast := by simpa using hlast
        exact List.getLast_mem hne
      rcases List.mem_cons.mp hq with rfl | hm
      · exact hpair.1 plast hmemlast
      · exact ih hpair.2 q hm plast hlast

theorem sumaDur_cons (a : PeriodoData) (l : List PeriodoData) :
    sumaDur (a :: l) = a.duracion + sumaDur l := by
  simp [sumaDur]

theorem slotsAux_suma :
    ∀ (l : List Periodo) (runStart : Int) (cur : Periodo) (e : Int),
      l.Pairwise (fun a b => a.horaInicio ≤ b.horaInicio) →
      (∀ p ∈ l, runStart ≤ p.horaInicio ∧ p.horaInicio ≤ e ∧
        60 ∣ p.horaInicio) →
      (l.getLastD cur).horaFin = e →
      60 ∣ runStart → 60 ∣ e → runStart ≤ e → e - runStart < 86400 →
      sumaDur (slotsAux runStart cur l) = (e - runStart) / 60 := by
  intro l
  induction l with
  | nil =>
    intro runStart cur e _ _ hlast hdr hde hle hspan
    have hcur : cur.horaFin = e := by simpa using hlast
    simp only [slotsAux, sumaDur, slotData, List.map_cons, List.map_nil,
      List.sum_cons, List.sum_nil, minutosTd, hcur]
    omega
  | cons q resto ih =>
    intro runStart cur e hs hb hlast hdr hde hle hspan
    have hq := hb q (List.mem_cons_self q resto)
    have hpair := List.pairwise_cons.mp hs
    have hlast2 : (resto.getLastD q).horaFin = e := by
      rw [List.getLastD_cons] at hlast
      exact hlast
    by_cases heq : q.horaInicio = runStart
    · have hif : (q.horaInicio == runStart) = true := beq_iff_eq.mpr heq
      simp only [slotsAux, hif, if_true]
      refine ih runStart q e hpair.2 ?_ hlast2 hdr hde hle hspan
      intro p hp
      exact hb p (List.mem_cons_of_mem _ hp)
    · have hif : (q.horaInicio == runStart) = false := by
        simp [heq]
      simp only [slotsAux, hif, Bool.false_eq_true, if_false]
      have hlt : runStart < q.horaInicio :=
        lt_of_le_of_ne hq.1 (fun hh => heq hh.symm)
      have hbounds : ∀ p ∈ resto, q.horaInicio ≤ p.horaInicio ∧
          p.horaInicio ≤ e ∧ 60 ∣ p.horaInicio := by
        intro p hp
        exact ⟨hpair.1 p hp, (hb p (List.mem_cons_of_mem _ hp)).2.1,
          (hb p (List.mem_cons_of_mem _ hp)).2.2⟩
      have hrec := ih q.horaInicio q e hpair.2 hbounds hlast2 hq.2.2 hde
        hq.2.1 (by omega)
      rw [sumaDur_cons, hrec]
      simp only [slotData, minutosTd]
      have hd1 : (60 : Int) ∣ runStart := hdr
      have hd2 : (60 : Int) ∣ q.horaInicio := hq.2.2
      have hd3 : (60 : Int) ∣ e := hde
      omega

/-- C2, counterexample: in the skewed two-member group the header slots sum
to 180 minutes (the pooled span 07:00–10:00) while the group's duration is
120 minutes (the seed controller's own span 08:00–10:00), so the
conservation equation fails for a group whose members cover different
windows. -/
theorem C2_counterexample :
    (identifica_grupos ejemploSesgado).map (fun g =>
      (sumaDur (genera_horas_de_inicio g.duracion g.controladores),
        g.duracion)) = [(180, 120)] ∧ (180 : Int) ≠ 120 := by
  decide

/-- C2, amended: timeline conservation holds for every discovered group
whose members each tile one common window — when every member's period list
is a contiguous chain of positive-length periods from `s` to `e`, with all
instants whole minutes and the window shorter than 24 hours, the header
durations (gap to the next distinct start, and for the final slot the gap
to its own end) sum exactly to the group's duration. -/
theorem C2_amended_conservacion (periodos : List Periodo) (s e : Int)
    (g : Grupo) (hg : g ∈ identifica_grupos periodos)
    (hchain : ∀ cp ∈ g.controladores, cadena s e cp.2 = true)
    (halign : ∀ cp ∈ g.controladores, ∀ p ∈ cp.2,
      (60 : Int) ∣ p.horaInicio ∧ (60 : Int) ∣ p.horaFin)
    (hspan : e - s < 86400) :
    sumaDur (genera_horas_de_inicio g.duracion g.controladores) =
      g.duracion := by
  obtain ⟨c, hhead, hdur⟩ := identifica_grupos_estructura periodos g hg
  have hcmem : (c, periodosDe periodos c) ∈ g.controladores := by
    cases hcs : g.controladores with
    | nil =>
      rw [hcs] at hhead
      cases hhead
    | cons x resto =>
      rw [hcs] at hhead
      have hx : x = (c, periodosDe periodos c) := by simpa using hhead
      rw [hx]
      exact List.mem_cons_self _ _
  have hchainc := hchain _ hcmem
  obtain ⟨p0, ps0, hps⟩ : ∃ p0 ps0, periodosDe periodos c = p0 :: ps0 := by
    cases hpc : periodosDe periodos c with
    | nil =>
      rw [hpc] at hchainc
      simp [cadena] at hchainc
    | cons a b => exact ⟨a, b, rfl⟩
  have hp0s : p0.horaInicio = s :=
    cadena_cabeza s e p0 ps0 (by rw [← hps]; exact hchainc)
  have hsdvd : (60 : Int) ∣ s := by
    rw [← hp0s]
    exact (halign _ hcmem p0 (by rw [hps]; exact List.mem_cons_self _ _)).1
  obtain ⟨pl0, hpl0, hpl0e⟩ : ∃ pl0,
      (periodosDe periodos c).getLast? = some pl0 ∧ pl0.horaFin = e := by
    have hu := cadena_ultimo s e (periodosDe periodos c) hchainc
    cases hgl : (periodosDe periodos c).getLast? with
    | none =>
      rw [hgl] at hu
      simp at hu
    | some a =>
      rw [hgl] at hu
      simp at hu
      exact ⟨a, rfl, hu⟩
  have hplmem : pl0 ∈ periodosDe periodos c := by
    have h1 : (p0 :: ps0).getLast? = some pl0 := by rw [← hps]; exact hpl0
    rw [List.getLast?_cons] at h1
    have h2 : ps0.getLastD p0 = pl0 := by simpa using h1
    rw [hps, ← h2]
    exact List.getLastD_mem_cons ps0 p0
  have hedvd : (60 : Int) ∣ e := by
    rw [← hpl0e]
    exact (halign _ hcmem pl0 hplmem).2
  have hcot0 := cadena_cotas s e _ hchainc p0
    (by rw [hps]; exact List.mem_cons_self _ _)
  have hse : s ≤ e := by omega
  have hdur2 : g.duracion = (e - s) / 60 := by
    have hh : (periodosDe periodos c).head? = some p0 := by
      rw [hps]
      rfl
    rw [hdur]
    unfold duracionGrupo
    rw [hh, hpl0]
    show minutosTd p0.horaInicio pl0.horaFin = (e - s) / 60
    unfold minutosTd
    rw [hp0s, hpl0e]
    omega
  set pool := g.controladores.flatMap (fun cp => cp.2) with hpooldef
  have hmemsplit : ∀ p ∈ pool, ∃ cp ∈ g.controladores, p ∈ cp.2 := by
    intro p hp
    exact List.mem_flatMap.mp hp
  have hbounds : ∀ p ∈ pool, s ≤ p.horaInicio ∧ p.horaInicio < p.horaFin ∧
      p.horaFin ≤ e := by
    intro p hp
    obtain ⟨cp, hcp, hpcp⟩ := hmemsplit p hp
    exact cadena_cotas s e cp.2 (hchain cp hcp) p hpcp
  have hdvd : ∀ p ∈ pool, (60 : Int) ∣ p.horaInicio ∧
      (60 : Int) ∣ p.horaFin := by
    intro p hp
    obtain ⟨cp, hcp, hpcp⟩ := hmemsplit p hp
    exact halign cp hcp p hpcp
  have hsig : ∀ p ∈ pool, p.horaFin = e ∨
      ∃ q ∈ pool, q.horaInicio = p.horaFin := by
    intro p hp
    obtain ⟨cp, hcp, hpcp⟩ := hmemsplit p hp
    rcases cadena_siguiente s e cp.2 (hchain cp hcp) p hpcp with
      h | ⟨q, hq, hqs⟩
    · exact Or.inl h
    · exact Or.inr ⟨q, List.mem_flatMap.mpr ⟨cp, hcp, hq⟩, hqs⟩
  have hperm := ordenaPorInicio_perm pool
  have hsort := ordenaPorInicio_sorted pool
  have hp0pool : p0 ∈ pool :=
    List.mem_flatMap.mpr ⟨(c, periodosDe periodos c), hcmem,
      by rw [hps]; exact List.mem_cons_self _ _⟩
  have hp0lp : p0 ∈ ordenaPorInicio pool := hperm.mem_iff.mpr hp0pool
  obtain ⟨ph, lt0, hlp⟩ : ∃ ph lt0, ordenaPorInicio pool = ph :: lt0 := by
    cases hl : ordenaPorInicio pool with
    | nil =>
      rw [hl] at hp0lp
      simp at hp0lp
    | cons a b => exact ⟨a, b, rfl⟩
  have hsort2 : (ph :: lt0).Pairwise
      (fun a b => a.horaInicio ≤ b.horaInicio) := by
    rw [← hlp]
    exact hsort
  have hmemlp : ∀ p ∈ ph :: lt0, p ∈ pool := by
    intro p hp
    refine hperm.mem_iff.mp ?_
    rw [hlp]
    exact hp
  have hphm := hmemlp ph (List.mem_cons_self _ _)
  have hp0cons : p0 ∈ ph :: lt0 := by
    rw [← hlp]
    exact hp0lp
  have hphs : ph.horaInicio = s := by
    have h1 := (hbounds ph hphm).1
    have hple2 : ph.horaInicio ≤ p0.horaInicio := by
      rcases List.mem_cons.mp hp0cons with rfl | hm
      · exact le_refl _
      · exact (List.pairwise_cons.mp hsort2).1 p0 hm
    omega
  have hglcons : (ph :: lt0).getLast? = some (lt0.getLastD ph) := by
    rw [List.getLastD_eq_getLast?]
    exact List.getLast?_cons
  have hplm : lt0.getLastD ph ∈ ph :: lt0 := List.getLastD_mem_cons lt0 ph
  have hplpool : lt0.getLastD ph ∈ pool := hmemlp _ hplm
  have hple : (lt0.getLastD ph).horaFin = e := by
    rcases hsig _ hplpool with h | ⟨q, hq, hqs⟩
    · exact h
    · exfalso
      have hqlp : q ∈ ph :: lt0 := by
        rw [← hlp]
        exact hperm.mem_iff.mpr hq
      have hmax : q.horaInicio ≤ (lt0.getLastD ph).horaInicio :=
        sorted_ultimo_max (ph :: lt0) hsort2 q hqlp _ hglcons
      have hplb := (hbounds _ hplpool).2.1
      omega
  have hbnd2 : ∀ p ∈ lt0, ph.horaInicio ≤ p.horaInicio ∧
      p.horaInicio ≤ e ∧ (60 : Int) ∣ p.horaInicio := by
    intro p hp
    have hple3 := (List.pairwise_cons.mp hsort2).1 p hp
    have hpm : p ∈ pool := hmemlp p (List.mem_cons_of_mem _ hp)
    have hb := hbounds p hpm
    exact ⟨hple3, by omega, (hdvd p hpm).1⟩
  have hsum := slotsAux_suma lt0 ph.horaInicio ph e
    (List.pairwise_cons.mp hsort2).2 hbnd2 hple
    (by rw [hphs]; exact hsdvd) hedvd (by rw [hphs]; exact hse)
    (by rw [hphs]; exact hspan)
  have hgen : genera_horas_de_inicio g.duracion g.controladores =
      slotsAux ph.horaInicio ph lt0 := by
    unfold genera_horas_de_inicio
    rw [← hpooldef, hlp]
    rfl
  rw [hgen, hsum, hphs, hdur2]

/-- C2, witness: the amended conservation applied to the aligned two-member
group tiling 00:00–01:00. -/
theorem C2_amended_conservacion_witness :
    sumaDur (genera_horas_de_inicio
      ((identifica_grupos ejemploAlineado).headD grupoVacio).duracion
      ((identifica_grupos ejemploAlineado).headD grupoVacio).controladores) =
    ((identifica_grupos ejemploAlineado).headD grupoVacio).duracion :=
  C2_amended_conservacion ejemploAlineado 0 3600
    ((identifica_grupos ejemploAlineado).headD grupoVacio)
    (by decide) (by decide) (by decide) (by decide)
